import Mathlib

/-!
A shallow embedding of the Arduino sketch `WearableTurnSignal.ino`.

Modelling conventions:
* Time is a `Nat` counting microseconds since boot; `millis()` is `t / 1000`.
  The only operations that advance time are `delay` (milliseconds) and
  `delayMicroseconds`; pin reads and writes are instantaneous.
* The two button lines are the only inputs the sketch ever reads.  An
  environment `env : Nat → Bool × Bool` gives the levels of the left and
  right button lines as a function of the current time in microseconds.
* Every function of the sketch is embedded as a function that, given the
  environment and the starting time, returns its result together with the
  list of I/O events it performs, in order: pin writes, mode samples and
  delays.  Output pins are never read back by the sketch, so the port state
  does not feed back into control flow; the port reached from a prior port
  `p` after a trace is computed by `applyTrace`.
* The unbounded `while` loops of the animators are given a fuel parameter
  counting outer iterations; fuel `0` stands for an execution that is still
  running, and returns an empty remainder trace.  The inner busy-wait loops
  terminate on their own (each iteration takes exactly the 1 ms debounce
  delay, so `millis() - start_time` equals the number of completed
  iterations) and are embedded with a countdown starting at `interval`.
-/

/-- Arduino `HIGH`. -/
def HIGH : Bool := true

/-- Arduino `LOW`. -/
def LOW : Bool := false

-- button pins (sketch lines 32-33)
def leftButtonPin : Nat := 13

def rightButtonPin : Nat := 8

/-- buzzer pin: analog pin A0, which is pin number 14 on an Uno-class board;
distinct from every digital pin used by the sketch. -/
def buzzerPin : Nat := 14

/-- how many turn signal lights there are to turn on in sequence. -/
def num_signal_lights : Nat := 4

/-- the sequence of left turn signal lights (sketch line 39). -/
def leftSignalPins : List Nat := [9, 10, 11, 12]

/-- the sequence of right turn signal lights (sketch line 40). -/
def rightSignalPins : List Nat := [3, 4, 5, 6]

/-- cycle step interval in ms (sketch line 42; written once, never changed). -/
def interval : Nat := 500

/-- enumerated type listing possible blinker states for all possible button
combinations (sketch lines 45-50). -/
inductive blinkerstate : Type where
  | off
  | left
  | right
  | hazards
deriving DecidableEq, Repr

/-- One I/O action performed by the sketch: a digital write to a pin, a
sample of the buttons (recording the derived mode), or a delay. -/
inductive Event : Type where
  | write (pin : Nat) (level : Bool)
  | sample (result : blinkerstate)
  | delayMs (ms : Nat)
  | delayUs (us : Nat)
deriving DecidableEq, Repr

/-- Effect of one event on the output-pin port (a map pin ↦ level). -/
def applyEvent (p : Nat → Bool) : Event → (Nat → Bool)
  | Event.write pin b => fun q => if q = pin then b else p q
  | _ => p

/-- Port reached from port `p` after performing a trace of events. -/
def applyTrace (p : Nat → Bool) (tr : List Event) : Nat → Bool :=
  tr.foldl applyEvent p

/-- Total microseconds of delay performed by a trace (`delay(n)` is 1000·n µs). -/
def traceTimeUs : List Event → Nat
  | [] => 0
  | Event.delayMs n :: rest => 1000 * n + traceTimeUs rest
  | Event.delayUs n :: rest => n + traceTimeUs rest
  | Event.write _ _ :: rest => traceTimeUs rest
  | Event.sample _ :: rest => traceTimeUs rest

/-- `digitalRead` restricted to the two lines the sketch reads: the two
button pins, whose levels come from the environment. -/
def digitalReadLine (env : Nat → Bool × Bool) (t : Nat) (pin : Nat) : Bool :=
  if pin = leftButtonPin then (env t).1
  else if pin = rightButtonPin then (env t).2
  else false

/-- `readButtonStates` (sketch lines 100-126): reads the two buttons,
derives the mode by the nested-if decision of the source, then performs the
1 ms debounce delay.  Returns the derived mode and the trace of the call. -/
def readButtonStates (env : Nat → Bool × Bool) (t : Nat) : blinkerstate × List Event :=
  let state :=
    if digitalReadLine env t leftButtonPin = HIGH then
      if digitalReadLine env t rightButtonPin = HIGH then blinkerstate.hazards
      else blinkerstate.left
    else if digitalReadLine env t rightButtonPin = HIGH then blinkerstate.right
    else blinkerstate.off
  (state, [Event.sample state, Event.delayMs 1])

/-- The body of `buzzerClick`'s for-loop, iterated `n` times: each iteration
writes the buzzer HIGH, waits 128 µs, writes it LOW, waits 128 µs. -/
def buzzerClickLoop : Nat → List Event
  | 0 => []
  | n + 1 =>
      Event.write buzzerPin HIGH :: Event.delayUs 128 ::
      Event.write buzzerPin LOW :: Event.delayUs 128 :: buzzerClickLoop n

/-- `buzzerClick` (sketch lines 230-238): 8 iterations of the toggle loop. -/
def buzzerClick : List Event := buzzerClickLoop 8

/-- The body of `disableSignals`' for-loop over slot indices: at index `i` it
writes `leftSignalPins[i]` LOW and then `rightSignalPins[i]` LOW, so we
iterate over the zipped pin lists. -/
def disableLoop : List (Nat × Nat) → List Event
  | [] => []
  | (l, r) :: rest => Event.write l LOW :: Event.write r LOW :: disableLoop rest

/-- `disableSignals` (sketch lines 217-223): turn off all the lights. -/
def disableSignals : List Event := disableLoop (leftSignalPins.zip rightSignalPins)

/-- The all-on for-loop inside `engageHazardLights` (sketch lines 198-201):
at index `i` it writes `leftSignalPins[i]` HIGH then `rightSignalPins[i]`
HIGH. -/
def hazardAllOnLoop : List (Nat × Nat) → List Event
  | [] => []
  | (l, r) :: rest => Event.write l HIGH :: Event.write r HIGH :: hazardAllOnLoop rest

/-- The trace of the hazard all-on loop. -/
def hazardAllOn : List Event := hazardAllOnLoop (leftSignalPins.zip rightSignalPins)

/-- The cancellable busy-wait
`while (millis() - start_time < interval && flag) { flag = (readButtonStates() == mode); }`
shared by all three animators.  Each iteration advances time by exactly the
1 ms debounce delay inside `readButtonStates`, so `millis() - start_time`
equals the number of completed iterations; the countdown `k` is the number
of iterations left before the interval expires, starting at `interval`.
The loop is entered with the flag true (callers guard the degenerate case).
Returns the final flag and the emitted trace. -/
def waitLoop (env : Nat → Bool × Bool) (mode : blinkerstate) : Nat → Nat → Bool × List Event
  | 0, _ => (true, [])
  | k + 1, t =>
      let rb := readButtonStates env t
      if rb.1 = mode then
        let w := waitLoop env mode k (t + traceTimeUs rb.2)
        (w.1, rb.2 ++ w.2)
      else (false, rb.2)

/-- The slot loop `for (int i = 0; i < num_signal_lights && flag; i++)`
shared verbatim by `leftTurnSignal` and `rightTurnSignal` (the two sketch
functions differ only in the pin array and the mode they compare against).
Per slot: write the slot pin HIGH, click the buzzer, then busy-wait one
interval watching the buttons.  Entered with the flag true. -/
def chaseFor (env : Nat → Bool × Bool) (mode : blinkerstate) :
    List Nat → Nat → Bool × List Event
  | [], _ => (true, [])
  | pin :: rest, t =>
      let pre := Event.write pin HIGH :: buzzerClick
      let w := waitLoop env mode interval (t + traceTimeUs pre)
      if w.1 then
        let c := chaseFor env mode rest (t + traceTimeUs pre + traceTimeUs w.2)
        (c.1, pre ++ w.2 ++ c.2)
      else (false, pre ++ w.2)

/-- The outer `while (flag)` loop of the two chase animators: blank all
lights, run the slot loop, and repeat while the flag is still true.  `fuel`
bounds the number of observed outer iterations; fuel 0 is an execution that
is still running and contributes no further events. -/
def chaseOuter (env : Nat → Bool × Bool) (mode : blinkerstate) (pins : List Nat) :
    Nat → Nat → List Event
  | 0, _ => []
  | f + 1, t =>
      let c := chaseFor env mode pins (t + traceTimeUs disableSignals)
      if c.1 then
        disableSignals ++ c.2 ++
          chaseOuter env mode pins f (t + traceTimeUs disableSignals + traceTimeUs c.2)
      else disableSignals ++ c.2

/-- `leftTurnSignal` (sketch lines 133-152). -/
def leftTurnSignal (env : Nat → Bool × Bool) : Nat → Nat → List Event :=
  chaseOuter env blinkerstate.left leftSignalPins

/-- `rightTurnSignal` (sketch lines 159-178). -/
def rightTurnSignal (env : Nat → Bool × Bool) : Nat → Nat → List Event :=
  chaseOuter env blinkerstate.right rightSignalPins

/-- `engageHazardLights` (sketch lines 185-210).  Per outer iteration: blank
all lights, click, busy-wait one interval watching the buttons; then —
unconditionally, exactly as in the source — turn all lights on, click, and
busy-wait again (the second wait loop's condition sees the flag, so it runs
zero iterations if the first wait was cancelled); repeat while the flag
survived both waits. -/
def engageHazardLights (env : Nat → Bool × Bool) : Nat → Nat → List Event
  | 0, _ => []
  | f + 1, t =>
      let pre := disableSignals ++ buzzerClick
      let w1 := waitLoop env blinkerstate.hazards interval (t + traceTimeUs pre)
      let mid := hazardAllOn ++ buzzerClick
      let t2 := t + traceTimeUs pre + traceTimeUs w1.2 + traceTimeUs mid
      let w2 := if w1.1 then waitLoop env blinkerstate.hazards interval t2 else (false, [])
      if w2.1 then
        pre ++ w1.2 ++ mid ++ w2.2 ++ engageHazardLights env f (t2 + traceTimeUs w2.2)
      else pre ++ w1.2 ++ mid ++ w2.2

/-- Whether an event is a pin write. -/
def Event.isWrite : Event → Bool
  | Event.write _ _ => true
  | _ => false

/-- The subsequence of pin writes of a trace. -/
def writesOf (tr : List Event) : List Event := tr.filter Event.isWrite

/-- Whether an event is a button sample. -/
def Event.isSample : Event → Bool
  | Event.sample _ => true
  | _ => false

/-- The subsequence of button samples of a trace. -/
def samplesOf (tr : List Event) : List Event := tr.filter Event.isSample

/-- An event is harmless for mode `mode` when it is not a sample returning a
different mode. -/
def sampleOk (mode : blinkerstate) : Event → Bool
  | Event.sample s => if s = mode then true else false
  | _ => true

/-- Every sample in the trace returned `mode` (no cancellation fired). -/
def allSamplesOk (mode : blinkerstate) (tr : List Event) : Bool :=
  tr.all (sampleOk mode)

/-- The suffix of the trace strictly after the first sample whose result
differs from `mode` (the first cancelling sample), if there is one. -/
def afterCancel (mode : blinkerstate) : List Event → Option (List Event)
  | [] => none
  | Event.sample s :: rest => if s = mode then afterCancel mode rest else some rest
  | _ :: rest => afterCancel mode rest

/-- The trace of a busy-wait that runs its full interval: `k` iterations,
each one sample (returning `mode`) followed by the 1 ms debounce delay. -/
def fullWait (mode : blinkerstate) : Nat → List Event
  | 0 => []
  | k + 1 => Event.sample mode :: Event.delayMs 1 :: fullWait mode k

/-- The trace of one uncancelled outer iteration of the slot loop. -/
def chaseCycleFor (mode : blinkerstate) : List Nat → List Event
  | [] => []
  | pin :: rest =>
      (Event.write pin HIGH :: buzzerClick) ++ fullWait mode interval ++
        chaseCycleFor mode rest

/-- The trace of one uncancelled outer iteration of a chase animator. -/
def chaseCycle (mode : blinkerstate) (pins : List Nat) : List Event :=
  disableSignals ++ chaseCycleFor mode pins

/-- The trace of one uncancelled outer iteration of `engageHazardLights`. -/
def hazardCycle : List Event :=
  disableSignals ++ buzzerClick ++ fullWait blinkerstate.hazards interval ++
    hazardAllOn ++ buzzerClick ++ fullWait blinkerstate.hazards interval

/-- Number of lit outputs of a bank in a given port. -/
def litCount (bank : List Nat) (p : Nat → Bool) : Nat := (bank.filter p).length

/-! ### Claim theorems: the input sampler and the leaf drivers -/

/-- C1: For every combination of the two button input readings,
`readButtonStates` returns exactly the mode given by the truth table:
both not asserted → off, left only → left, right only → right,
both asserted → hazards. -/
theorem readButtonStates_truth_table (env : Nat → Bool × Bool) (t : Nat) (l r : Bool)
    (h : env t = (l, r)) :
    (readButtonStates env t).1 =
      match l, r with
      | false, false => blinkerstate.off
      | true, false => blinkerstate.left
      | false, true => blinkerstate.right
      | true, true => blinkerstate.hazards := by
  cases l <;> cases r <;>
    simp [readButtonStates, digitalReadLine, h, HIGH, leftButtonPin, rightButtonPin]

/-- Witness for C1: with both buttons pressed the sampler reports hazards. -/
theorem readButtonStates_truth_table_witness :
    ((fun _ => (true, true) : Nat → Bool × Bool) 0 = (true, true)) ∧
      (readButtonStates (fun _ => (true, true)) 0).1 = blinkerstate.hazards :=
  ⟨rfl, readButtonStates_truth_table (fun _ => (true, true)) 0 true true rfl⟩

/-- C9: `readButtonStates` is side-effect-free on the I/O port: its trace
contains no pin write, applying its trace to any port leaves every pin
level unchanged, and its returned mode is a function of the two input
lines alone (two calls that read the same two levels return the same
mode). -/
theorem readButtonStates_no_port_writes (env env2 : Nat → Bool × Bool) (t t2 : Nat)
    (p : Nat → Bool) (h : env t = env2 t2) :
    writesOf (readButtonStates env t).2 = [] ∧
      (∀ pin, applyTrace p (readButtonStates env t).2 pin = p pin) ∧
      (readButtonStates env t).1 = (readButtonStates env2 t2).1 := by
  refine ⟨rfl, fun pin => rfl, ?_⟩
  simp [readButtonStates, digitalReadLine, h]

/-- Witness for C9 at two concrete calls reading the same levels. -/
theorem readButtonStates_no_port_writes_witness :
    ((fun _ => (true, false) : Nat → Bool × Bool) 0 =
        (fun u => (decide (u < 9), false) : Nat → Bool × Bool) 5) ∧
      (writesOf (readButtonStates (fun _ => (true, false)) 0).2 = [] ∧
        (∀ pin, applyTrace (fun _ => true) (readButtonStates (fun _ => (true, false)) 0).2 pin =
          (fun _ => true : Nat → Bool) pin) ∧
        (readButtonStates (fun _ => (true, false)) 0).1 =
          (readButtonStates (fun u => (decide (u < 9), false)) 5).1) :=
  ⟨rfl, readButtonStates_no_port_writes (fun _ => (true, false))
    (fun u => (decide (u < 9), false)) 0 5 (fun _ => true) rfl⟩

/-- C6: `buzzerClick` writes the buzzer pin through exactly 8 full HIGH/LOW
toggle pairs, holding each half-cycle for 128 microseconds, and writes no
other pin: its trace is exactly the 8-fold repetition of
write-HIGH / 128 µs / write-LOW / 128 µs on the buzzer pin, it contains
exactly 8 HIGH writes and 8 LOW writes, and every write in it targets the
buzzer pin.  The trace is a fixed list, the same for every caller and in
every mode. -/
theorem buzzerClick_eight_toggle_pairs :
    buzzerClick =
      [Event.write buzzerPin true, Event.delayUs 128, Event.write buzzerPin false, Event.delayUs 128,
       Event.write buzzerPin true, Event.delayUs 128, Event.write buzzerPin false, Event.delayUs 128,
       Event.write buzzerPin true, Event.delayUs 128, Event.write buzzerPin false, Event.delayUs 128,
       Event.write buzzerPin true, Event.delayUs 128, Event.write buzzerPin false, Event.delayUs 128,
       Event.write buzzerPin true, Event.delayUs 128, Event.write buzzerPin false, Event.delayUs 128,
       Event.write buzzerPin true, Event.delayUs 128, Event.write buzzerPin false, Event.delayUs 128,
       Event.write buzzerPin true, Event.delayUs 128, Event.write buzzerPin false, Event.delayUs 128,
       Event.write buzzerPin true, Event.delayUs 128, Event.write buzzerPin false, Event.delayUs 128] ∧
    (buzzerClick.filter (fun e => e = Event.write buzzerPin HIGH)).length = 8 ∧
    (buzzerClick.filter (fun e => e = Event.write buzzerPin LOW)).length = 8 ∧
    buzzerClick.all (fun e =>
      match e with
      | Event.write pin2 _ => pin2 == buzzerPin
      | _ => true) = true :=
  ⟨by decide, by decide, by decide, by decide⟩

/-- C10: after `buzzerClick` the buzzer pin is LOW, from any prior port. -/
theorem buzzerClick_leaves_buzzer_low (p : Nat → Bool) :
    applyTrace p buzzerClick buzzerPin = false := rfl

/-- C7: after `disableSignals`, every signal output of both banks is LOW,
from any prior port; and the operation is idempotent: running it twice
yields the same port as running it once, at every pin. -/
theorem disableSignals_all_inactive_idempotent (p : Nat → Bool) :
    (applyTrace p disableSignals 9 = false ∧ applyTrace p disableSignals 10 = false ∧
      applyTrace p disableSignals 11 = false ∧ applyTrace p disableSignals 12 = false ∧
      applyTrace p disableSignals 3 = false ∧ applyTrace p disableSignals 4 = false ∧
      applyTrace p disableSignals 5 = false ∧ applyTrace p disableSignals 6 = false) ∧
    (∀ pin, applyTrace (applyTrace p disableSignals) disableSignals pin =
      applyTrace p disableSignals pin) := by
  refine ⟨⟨rfl, rfl, rfl, rfl, rfl, rfl, rfl, rfl⟩, fun pin => ?_⟩
  simp only [disableSignals, disableLoop, leftSignalPins, rightSignalPins, List.zip,
    List.zipWith, applyTrace, List.foldl, applyEvent]
  split_ifs <;> rfl

/-! ### Helper lemmas about traces and the busy-wait loop -/

theorem applyTrace_append (p : Nat → Bool) (a b : List Event) :
    applyTrace p (a ++ b) = applyTrace (applyTrace p a) b :=
  List.foldl_append _ _ a b

theorem traceTimeUs_append (a b : List Event) :
    traceTimeUs (a ++ b) = traceTimeUs a + traceTimeUs b := by
  induction a with
  | nil => simp [traceTimeUs]
  | cons e rest ih => cases e <;> simp [traceTimeUs, ih] <;> omega

theorem writesOf_append (a b : List Event) :
    writesOf (a ++ b) = writesOf a ++ writesOf b := by
  simp [writesOf]

theorem allSamplesOk_append (mode : blinkerstate) (a b : List Event) :
    allSamplesOk mode (a ++ b) = (allSamplesOk mode a && allSamplesOk mode b) :=
  List.all_append

theorem noWrites_applyTrace (tr : List Event) (h : writesOf tr = []) (p : Nat → Bool)
    (pin : Nat) : applyTrace p tr pin = p pin := by
  induction tr generalizing p with
  | nil => rfl
  | cons e rest ih =>
      cases e with
      | write pin2 b => simp [writesOf, List.filter, Event.isWrite] at h
      | sample s => exact ih (by simpa [writesOf, List.filter, Event.isWrite] using h) _
      | delayMs n => exact ih (by simpa [writesOf, List.filter, Event.isWrite] using h) _
      | delayUs n => exact ih (by simpa [writesOf, List.filter, Event.isWrite] using h) _

theorem readButtonStates_snd (env : Nat → Bool × Bool) (t : Nat) :
    (readButtonStates env t).2 =
      [Event.sample (readButtonStates env t).1, Event.delayMs 1] := rfl

theorem afterCancel_append_ok (mode : blinkerstate) (a b : List Event)
    (h : allSamplesOk mode a = true) :
    afterCancel mode (a ++ b) = afterCancel mode b := by
  induction a with
  | nil => rfl
  | cons e rest ih =>
      rw [List.cons_append]
      rw [allSamplesOk, List.all_cons, Bool.and_eq_true] at h
      have hrest : allSamplesOk mode rest = true := h.2
      cases e with
      | sample s =>
          have hs : s = mode := by
            have := h.1
            by_cases hsm : s = mode
            · exact hsm
            · simp [sampleOk, hsm] at this
          simp only [afterCancel, if_pos hs]
          exact ih hrest
      | write pin2 b2 => simp only [afterCancel]; exact ih hrest
      | delayMs n => simp only [afterCancel]; exact ih hrest
      | delayUs n => simp only [afterCancel]; exact ih hrest

theorem afterCancel_append_some (mode : blinkerstate) (a b ra : List Event)
    (h : afterCancel mode a = some ra) :
    afterCancel mode (a ++ b) = some (ra ++ b) := by
  induction a with
  | nil => simp [afterCancel] at h
  | cons e rest ih =>
      rw [List.cons_append]
      cases e with
      | sample s =>
          by_cases hs : s = mode
          · rw [afterCancel, if_pos hs] at h
            rw [afterCancel, if_pos hs]
            exact ih h
          · rw [afterCancel, if_neg hs] at h
            rw [afterCancel, if_neg hs]
            injection h with h
            rw [h]
      | write pin2 b2 =>
          simp only [afterCancel] at h ⊢
          exact ih h
      | delayMs n =>
          simp only [afterCancel] at h ⊢
          exact ih h
      | delayUs n =>
          simp only [afterCancel] at h ⊢
          exact ih h

theorem afterCancel_decomp (mode s : blinkerstate) (hs : ¬ s = mode) :
    ∀ pre r : List Event,
      (afterCancel mode (pre ++ Event.sample s :: r) = none ∨
        afterCancel mode (pre ++ Event.sample s :: r) = some [Event.delayMs 1]) →
      r = [Event.delayMs 1] := by
  intro pre
  induction pre with
  | nil =>
      intro r h
      simp only [List.nil_append, afterCancel, if_neg hs] at h
      rcases h with h | h
      · exact absurd h (by simp)
      · injection h
  | cons e rest ih =>
      intro r h
      rw [List.cons_append] at h
      cases e with
      | sample s2 =>
          by_cases h2 : s2 = mode
          · simp only [afterCancel, if_pos h2] at h
            exact ih r h
          · simp only [afterCancel, if_neg h2] at h
            rcases h with h | h
            · exact absurd h (by simp)
            · exfalso
              injection h with h
              have hmem : Event.sample s ∈ rest ++ Event.sample s :: r := by simp
              rw [h] at hmem
              simp at hmem
      | write pin2 b2 => simp only [afterCancel] at h; exact ih r h
      | delayMs n => simp only [afterCancel] at h; exact ih r h
      | delayUs n => simp only [afterCancel] at h; exact ih r h

theorem sampleOk_write (mode : blinkerstate) (pin : Nat) (b : Bool) :
    sampleOk mode (Event.write pin b) = true := rfl

theorem allSamplesOk_buzzerClick (mode : blinkerstate) :
    allSamplesOk mode buzzerClick = true := rfl

theorem allSamplesOk_disableSignals (mode : blinkerstate) :
    allSamplesOk mode disableSignals = true := rfl

theorem allSamplesOk_hazardAllOn (mode : blinkerstate) :
    allSamplesOk mode hazardAllOn = true := rfl

theorem waitLoop_true (env : Nat → Bool × Bool) (mode : blinkerstate) :
    ∀ k t, (waitLoop env mode k t).1 = true →
      allSamplesOk mode (waitLoop env mode k t).2 = true := by
  intro k
  induction k with
  | zero => intro t _; rfl
  | succ k ih =>
      intro t h
      by_cases hs : (readButtonStates env t).1 = mode
      · simp only [waitLoop, if_pos hs] at h ⊢
        rw [allSamplesOk_append, Bool.and_eq_true]
        refine ⟨?_, ih _ h⟩
        rw [readButtonStates_snd]
        simp [allSamplesOk, sampleOk, hs]
      · simp [waitLoop, if_neg hs] at h

theorem waitLoop_false (env : Nat → Bool × Bool) (mode : blinkerstate) :
    ∀ k t, (waitLoop env mode k t).1 = false →
      afterCancel mode (waitLoop env mode k t).2 = some [Event.delayMs 1] := by
  intro k
  induction k with
  | zero => intro t h; simp [waitLoop] at h
  | succ k ih =>
      intro t h
      by_cases hs : (readButtonStates env t).1 = mode
      · simp only [waitLoop, if_pos hs] at h ⊢
        rw [readButtonStates_snd, List.cons_append, List.cons_append]
        simp only [afterCancel, if_pos hs, List.nil_append]
        exact ih _ h
      · simp only [waitLoop, if_neg hs]
        rw [readButtonStates_snd]
        simp only [afterCancel, if_neg hs]

theorem waitLoop_noWrites (env : Nat → Bool × Bool) (mode : blinkerstate) :
    ∀ k t, writesOf (waitLoop env mode k t).2 = [] := by
  intro k
  induction k with
  | zero => intro t; rfl
  | succ k ih =>
      intro t
      by_cases hs : (readButtonStates env t).1 = mode
      · simp only [waitLoop, if_pos hs]
        rw [writesOf_append, ih, readButtonStates_snd]
        rfl
      · simp only [waitLoop, if_neg hs]
        rw [readButtonStates_snd]
        rfl

theorem waitLoop_full (env : Nat → Bool × Bool) (mode : blinkerstate)
    (hall : ∀ u, (readButtonStates env u).1 = mode) :
    ∀ k t, waitLoop env mode k t = (true, fullWait mode k) := by
  intro k
  induction k with
  | zero => intro t; rfl
  | succ k ih =>
      intro t
      simp only [waitLoop, if_pos (hall t)]
      rw [ih, readButtonStates_snd, hall t]
      rfl

theorem fullWait_noWrites (mode : blinkerstate) : ∀ k, writesOf (fullWait mode k) = [] := by
  intro k
  induction k with
  | zero => rfl
  | succ k ih => simpa [fullWait, writesOf, List.filter, Event.isWrite] using ih

theorem fullWait_timeUs (mode : blinkerstate) : ∀ k, traceTimeUs (fullWait mode k) = 1000 * k := by
  intro k
  induction k with
  | zero => rfl
  | succ k ih => simp [fullWait, traceTimeUs, ih]; omega

theorem chaseFor_true (env : Nat → Bool × Bool) (mode : blinkerstate) :
    ∀ pins t, (chaseFor env mode pins t).1 = true →
      allSamplesOk mode (chaseFor env mode pins t).2 = true := by
  intro pins
  induction pins with
  | nil => intro t _; rfl
  | cons pin rest ih =>
      intro t h
      by_cases hw : (waitLoop env mode interval
          (t + traceTimeUs (Event.write pin HIGH :: buzzerClick))).1 = true
      · simp only [chaseFor, if_pos hw] at h ⊢
        rw [allSamplesOk_append, allSamplesOk_append, Bool.and_eq_true, Bool.and_eq_true]
        refine ⟨⟨?_, waitLoop_true env mode _ _ hw⟩, ih _ h⟩
        rw [allSamplesOk, List.all_cons, Bool.and_eq_true]
        exact ⟨rfl, allSamplesOk_buzzerClick mode⟩
      · simp [chaseFor, if_neg hw] at h
  
theorem chaseFor_false (env : Nat → Bool × Bool) (mode : blinkerstate) :
    ∀ pins t, (chaseFor env mode pins t).1 = false →
      afterCancel mode (chaseFor env mode pins t).2 = some [Event.delayMs 1] := by
  intro pins
  induction pins with
  | nil => intro t h; simp [chaseFor] at h
  | cons pin rest ih =>
      intro t h
      by_cases hw : (waitLoop env mode interval
          (t + traceTimeUs (Event.write pin HIGH :: buzzerClick))).1 = true
      · simp only [chaseFor, if_pos hw] at h ⊢
        rw [afterCancel_append_ok]
        · exact ih _ h
        · rw [allSamplesOk_append, Bool.and_eq_true]
          refine ⟨?_, waitLoop_true env mode _ _ hw⟩
          rw [allSamplesOk, List.all_cons, Bool.and_eq_true]
          exact ⟨rfl, allSamplesOk_buzzerClick mode⟩
      · simp only [chaseFor, if_neg hw]
        rw [afterCancel_append_ok]
        · exact waitLoop_false env mode _ _ (by simpa using hw)
        · rw [allSamplesOk, List.all_cons, Bool.and_eq_true]
          exact ⟨rfl, allSamplesOk_buzzerClick mode⟩

theorem chaseOuter_cancel (env : Nat → Bool × Bool) (mode : blinkerstate) (pins : List Nat) :
    ∀ f t, afterCancel mode (chaseOuter env mode pins f t) = none ∨
      afterCancel mode (chaseOuter env mode pins f t) = some [Event.delayMs 1] := by
  intro f
  induction f with
  | zero => intro t; left; rfl
  | succ f ih =>
      intro t
      by_cases hc : (chaseFor env mode pins (t + traceTimeUs disableSignals)).1 = true
      · simp only [chaseOuter, if_pos hc]
        rw [afterCancel_append_ok]
        · exact ih _
        · rw [allSamplesOk_append, Bool.and_eq_true]
          exact ⟨allSamplesOk_disableSignals mode, chaseFor_true env mode _ _ hc⟩
      · simp only [chaseOuter, if_neg hc]
        rw [afterCancel_append_ok]
        · exact Or.inr (chaseFor_false env mode _ _ (by simpa using hc))
        · exact allSamplesOk_disableSignals mode

theorem leftTurnSignal_eq (env : Nat → Bool × Bool) (f t : Nat) :
    leftTurnSignal env f t = chaseOuter env blinkerstate.left leftSignalPins f t := rfl

theorem rightTurnSignal_eq (env : Nat → Bool × Bool) (f t : Nat) :
    rightTurnSignal env f t = chaseOuter env blinkerstate.right rightSignalPins f t := rfl

/-! ### Claim theorems: cancellation behaviour of the two chase animators -/

/-- C5: in `leftTurnSignal` (and symmetrically `rightTurnSignal`), once a
sample returns a mode other than the animator's own mode, the animator
stops within one debounce-poll step: the whole remainder of the execution
after that sample is the single 1 ms debounce delay of the cancelling call,
so no further slot activation, buzzer click or blanking (indeed no pin
write at all) occurs after that sample. -/
theorem chase_cancel_stops_immediately (env env2 : Nat → Bool × Bool)
    (f f2 t t2 : Nat) (r r2 : List Event)
    (hL : afterCancel blinkerstate.left (leftTurnSignal env f t) = some r)
    (hR : afterCancel blinkerstate.right (rightTurnSignal env2 f2 t2) = some r2) :
    (r = [Event.delayMs 1] ∧ writesOf r = []) ∧
      (r2 = [Event.delayMs 1] ∧ writesOf r2 = []) := by
  rw [leftTurnSignal_eq] at hL
  rw [rightTurnSignal_eq] at hR
  rcases chaseOuter_cancel env blinkerstate.left leftSignalPins f t with h | h
  · rw [hL] at h; exact absurd h (by simp)
  · rcases chaseOuter_cancel env2 blinkerstate.right rightSignalPins f2 t2 with h2 | h2
    · rw [hR] at h2; exact absurd h2 (by simp)
    · rw [hL] at h
      rw [hR] at h2
      injection h with h
      injection h2 with h2
      exact ⟨⟨h, by rw [h]; rfl⟩, ⟨h2, by rw [h2]; rfl⟩⟩

/-- Witness for C5: with both buttons released, the first wait-loop sample
of either animator cancels it, and the remainder is the lone debounce
delay. -/
theorem chase_cancel_stops_immediately_witness :
    (afterCancel blinkerstate.left (leftTurnSignal (fun _ => (false, false)) 1 0) =
        some [Event.delayMs 1] ∧
      afterCancel blinkerstate.right (rightTurnSignal (fun _ => (false, false)) 1 0) =
        some [Event.delayMs 1]) ∧
      (([Event.delayMs 1] = [Event.delayMs 1] ∧ writesOf [Event.delayMs 1] = []) ∧
        ([Event.delayMs 1] = [Event.delayMs 1] ∧ writesOf [Event.delayMs 1] = [])) :=
  ⟨⟨by decide, by decide⟩,
    chase_cancel_stops_immediately (fun _ => (false, false)) (fun _ => (false, false))
      1 1 0 0 [Event.delayMs 1] [Event.delayMs 1] (by decide) (by decide)⟩

/-- C8: when `leftTurnSignal` (or `rightTurnSignal`) exits because of
cancellation, no final blanking pass is performed: every pin that was HIGH
at the moment the cancelling sample fired is still HIGH when the function
returns. -/
theorem chase_cancel_no_final_blank (env env2 : Nat → Bool × Bool)
    (f f2 t t2 : Nat) (p p2 : Nat → Bool) (pin pin2 : Nat)
    (pre r pre2 r2 : List Event) (s s2 : blinkerstate)
    (hL : leftTurnSignal env f t = pre ++ Event.sample s :: r)
    (hsL : ¬ s = blinkerstate.left)
    (hlitL : applyTrace p pre pin = true)
    (hR : rightTurnSignal env2 f2 t2 = pre2 ++ Event.sample s2 :: r2)
    (hsR : ¬ s2 = blinkerstate.right)
    (hlitR : applyTrace p2 pre2 pin2 = true) :
    applyTrace p (leftTurnSignal env f t) pin = true ∧
      applyTrace p2 (rightTurnSignal env2 f2 t2) pin2 = true := by
  constructor
  · have hc := chaseOuter_cancel env blinkerstate.left leftSignalPins f t
    rw [← leftTurnSignal_eq, hL] at hc
    have hr : r = [Event.delayMs 1] := afterCancel_decomp blinkerstate.left s hsL pre r hc
    rw [hL, hr, applyTrace_append]
    exact hlitL
  · have hc := chaseOuter_cancel env2 blinkerstate.right rightSignalPins f2 t2
    rw [← rightTurnSignal_eq, hR] at hc
    have hr : r2 = [Event.delayMs 1] := afterCancel_decomp blinkerstate.right s2 hsR pre2 r2 hc
    rw [hR, hr, applyTrace_append]
    exact hlitR

/-- Witness for C8: with both buttons released, each animator lights its
first slot, is cancelled by the first wait sample, and that slot pin is
still HIGH when the animator returns. -/
theorem chase_cancel_no_final_blank_witness :
    (leftTurnSignal (fun _ => (false, false)) 1 0 =
        (disableSignals ++ Event.write 9 true :: buzzerClick) ++
          Event.sample blinkerstate.off :: [Event.delayMs 1] ∧
      ¬ blinkerstate.off = blinkerstate.left ∧
      applyTrace (fun _ => false) (disableSignals ++ Event.write 9 true :: buzzerClick) 9 = true ∧
      rightTurnSignal (fun _ => (false, false)) 1 0 =
        (disableSignals ++ Event.write 3 true :: buzzerClick) ++
          Event.sample blinkerstate.off :: [Event.delayMs 1] ∧
      ¬ blinkerstate.off = blinkerstate.right ∧
      applyTrace (fun _ => false) (disableSignals ++ Event.write 3 true :: buzzerClick) 3 = true) ∧
    (applyTrace (fun _ => false) (leftTurnSignal (fun _ => (false, false)) 1 0) 9 = true ∧
      applyTrace (fun _ => false) (rightTurnSignal (fun _ => (false, false)) 1 0) 3 = true) :=
  ⟨⟨by decide, by decide, by decide, by decide, by decide, by decide⟩,
    chase_cancel_no_final_blank (fun _ => (false, false)) (fun _ => (false, false)) 1 1 0 0
      (fun _ => false) (fun _ => false) 9 3
      (disableSignals ++ Event.write 9 true :: buzzerClick) [Event.delayMs 1]
      (disableSignals ++ Event.write 3 true :: buzzerClick) [Event.delayMs 1]
      blinkerstate.off blinkerstate.off
      (by decide) (by decide) (by decide) (by decide) (by decide) (by decide)⟩

/-! ### The uncancelled chase cycle -/

theorem chaseFor_full (env : Nat → Bool × Bool) (mode : blinkerstate)
    (hall : ∀ u, (readButtonStates env u).1 = mode) :
    ∀ pins t, chaseFor env mode pins t = (true, chaseCycleFor mode pins) := by
  intro pins
  induction pins with
  | nil => intro t; rfl
  | cons pin rest ih =>
      intro t
      simp only [chaseFor]
      rw [waitLoop_full env mode hall]
      simp only [if_pos rfl]
      rw [ih]
      rfl

theorem chaseOuter_full (env : Nat → Bool × Bool) (mode : blinkerstate) (pins : List Nat)
    (hall : ∀ u, (readButtonStates env u).1 = mode) :
    ∀ f t, chaseOuter env mode pins (f + 1) t =
      chaseCycle mode pins ++
        chaseOuter env mode pins f (t + traceTimeUs (chaseCycle mode pins)) := by
  intro f t
  simp only [chaseOuter]
  rw [chaseFor_full env mode hall]
  simp only [if_pos rfl, if_true]
  rw [chaseCycle, traceTimeUs_append, List.append_assoc, Nat.add_assoc, List.append_assoc]

/-! ### Claim theorems: the chase pattern -/

set_option maxRecDepth 1000000 in
/-- Counterexample to C2 as stated: the chase is not single-slot-at-a-time.
With the left button held, after the first full slot interval the second
slot pin (10) is written HIGH while the first slot pin (9) is still HIGH —
the code never blanks between slot activations — so at that point two
left-bank outputs are lit at once.  Position 1041 of the trace is the
`write 10 HIGH` event: 8 blanking writes, the slot-0 activation, 32 click
events and 1000 wait events precede it. -/
theorem chase_not_single_slot_at_a_time :
    1 < litCount leftSignalPins
      (applyTrace (fun _ => false) ((leftTurnSignal (fun _ => (true, false)) 1 0).take 1042)) := by
  decide

set_option maxRecDepth 1000000 in
/-- C2 (amended): while Left mode is held, each outer iteration of
`leftTurnSignal` first blanks both banks and then drives the left-bank
outputs HIGH strictly in slot order 0,1,2,3, with only buzzer writes in
between and no output ever driven LOW between activations — so the lit
slots accumulate (each output, once activated, stays active through the
following one-interval wait and until the next iteration's blanking) rather
than being lit one at a time; each wait lasts `interval` milliseconds of
samples; the right bank is never driven HIGH; the iterations repeat while
Left stays selected.  Symmetrically for `rightTurnSignal`. -/
theorem chase_cumulative_in_order (env env2 : Nat → Bool × Bool)
    (hl : ∀ u, env u = (true, false)) (hr2 : ∀ u, env2 u = (false, true)) :
    (∀ f t, leftTurnSignal env (f + 1) t =
        chaseCycle blinkerstate.left leftSignalPins ++
          leftTurnSignal env f (t + traceTimeUs (chaseCycle blinkerstate.left leftSignalPins))) ∧
    (∀ f t, rightTurnSignal env2 (f + 1) t =
        chaseCycle blinkerstate.right rightSignalPins ++
          rightTurnSignal env2 f (t + traceTimeUs (chaseCycle blinkerstate.right rightSignalPins))) ∧
    writesOf (chaseCycle blinkerstate.left leftSignalPins) =
      disableSignals ++
        ((Event.write 9 HIGH :: writesOf buzzerClick) ++
          ((Event.write 10 HIGH :: writesOf buzzerClick) ++
            ((Event.write 11 HIGH :: writesOf buzzerClick) ++
              (Event.write 12 HIGH :: writesOf buzzerClick)))) ∧
    writesOf (chaseCycle blinkerstate.right rightSignalPins) =
      disableSignals ++
        ((Event.write 3 HIGH :: writesOf buzzerClick) ++
          ((Event.write 4 HIGH :: writesOf buzzerClick) ++
            ((Event.write 5 HIGH :: writesOf buzzerClick) ++
              (Event.write 6 HIGH :: writesOf buzzerClick)))) ∧
    traceTimeUs (fullWait blinkerstate.left interval) = 1000 * interval ∧
    traceTimeUs (fullWait blinkerstate.right interval) = 1000 * interval := by
  have hallL : ∀ u, (readButtonStates env u).1 = blinkerstate.left := by
    intro u
    simp [readButtonStates, digitalReadLine, hl u, HIGH, leftButtonPin, rightButtonPin]
  have hallR : ∀ u, (readButtonStates env2 u).1 = blinkerstate.right := by
    intro u
    simp [readButtonStates, digitalReadLine, hr2 u, HIGH, leftButtonPin, rightButtonPin]
  refine ⟨?_, ?_, by decide, by decide, fullWait_timeUs _ interval, fullWait_timeUs _ interval⟩
  · intro f t
    exact chaseOuter_full env blinkerstate.left leftSignalPins hallL f t
  · intro f t
    exact chaseOuter_full env2 blinkerstate.right rightSignalPins hallR f t

/-- Witness for C2 (amended), at the constant environments holding the left
(resp. right) button. -/
theorem chase_cumulative_in_order_witness :
    (∀ f t, leftTurnSignal (fun _ => (true, false)) (f + 1) t =
        chaseCycle blinkerstate.left leftSignalPins ++
          leftTurnSignal (fun _ => (true, false)) f
            (t + traceTimeUs (chaseCycle blinkerstate.left leftSignalPins))) ∧
    (∀ f t, rightTurnSignal (fun _ => (false, true)) (f + 1) t =
        chaseCycle blinkerstate.right rightSignalPins ++
          rightTurnSignal (fun _ => (false, true)) f
            (t + traceTimeUs (chaseCycle blinkerstate.right rightSignalPins))) ∧
    writesOf (chaseCycle blinkerstate.left leftSignalPins) =
      disableSignals ++
        ((Event.write 9 HIGH :: writesOf buzzerClick) ++
          ((Event.write 10 HIGH :: writesOf buzzerClick) ++
            ((Event.write 11 HIGH :: writesOf buzzerClick) ++
              (Event.write 12 HIGH :: writesOf buzzerClick)))) ∧
    writesOf (chaseCycle blinkerstate.right rightSignalPins) =
      disableSignals ++
        ((Event.write 3 HIGH :: writesOf buzzerClick) ++
          ((Event.write 4 HIGH :: writesOf buzzerClick) ++
            ((Event.write 5 HIGH :: writesOf buzzerClick) ++
              (Event.write 6 HIGH :: writesOf buzzerClick)))) ∧
    traceTimeUs (fullWait blinkerstate.left interval) = 1000 * interval ∧
    traceTimeUs (fullWait blinkerstate.right interval) = 1000 * interval :=
  chase_cumulative_in_order (fun _ => (true, false)) (fun _ => (false, true))
    (fun _ => rfl) (fun _ => rfl)

/-! ### The hazard animator -/

theorem traceTimeUs_disableSignals : traceTimeUs disableSignals = 0 := rfl

theorem traceTimeUs_buzzerClick : traceTimeUs buzzerClick = 2048 := rfl

theorem traceTimeUs_hazardAllOn : traceTimeUs hazardAllOn = 0 := rfl

theorem allSamplesOk_pre_hazard :
    allSamplesOk blinkerstate.hazards (disableSignals ++ buzzerClick) = true := rfl

theorem writesOf_hazardAllOn : writesOf hazardAllOn = hazardAllOn := rfl

/-- A busy-wait trace writes no pin, so it leaves any port unchanged. -/
theorem applyTrace_waitLoop (env : Nat → Bool × Bool) (mode : blinkerstate) (k t : Nat)
    (p : Nat → Bool) (pin : Nat) :
    applyTrace p (waitLoop env mode k t).2 pin = p pin :=
  noWrites_applyTrace _ (waitLoop_noWrites env mode k t) p pin

/-- After the all-on loop and the click that follows it, every signal pin of
both banks reads HIGH, whatever the port was before. -/
theorem hazardMid_lit (q : Nat → Bool) :
    applyTrace (applyTrace q hazardAllOn) buzzerClick 9 = true ∧
    applyTrace (applyTrace q hazardAllOn) buzzerClick 10 = true ∧
    applyTrace (applyTrace q hazardAllOn) buzzerClick 11 = true ∧
    applyTrace (applyTrace q hazardAllOn) buzzerClick 12 = true ∧
    applyTrace (applyTrace q hazardAllOn) buzzerClick 3 = true ∧
    applyTrace (applyTrace q hazardAllOn) buzzerClick 4 = true ∧
    applyTrace (applyTrace q hazardAllOn) buzzerClick 5 = true ∧
    applyTrace (applyTrace q hazardAllOn) buzzerClick 6 = true :=
  ⟨rfl, rfl, rfl, rfl, rfl, rfl, rfl, rfl⟩

theorem engageHazardLights_full (env : Nat → Bool × Bool)
    (hall : ∀ u, (readButtonStates env u).1 = blinkerstate.hazards) :
    ∀ f t, engageHazardLights env (f + 1) t =
      hazardCycle ++ engageHazardLights env f (t + traceTimeUs hazardCycle) := by
  intro f t
  simp only [engageHazardLights, waitLoop_full env blinkerstate.hazards hall, if_pos rfl, if_true]
  rw [hazardCycle]
  simp only [traceTimeUs_append, traceTimeUs_disableSignals, traceTimeUs_buzzerClick,
    traceTimeUs_hazardAllOn, fullWait_timeUs, List.append_assoc, Nat.zero_add, Nat.add_zero,
    Nat.add_assoc]

set_option maxRecDepth 1000000 in
/-- C4: each full uncancelled hazard cycle is, in order: blank both banks,
one buzzer click, wait one interval, illuminate all signal outputs of both
sides simultaneously, one buzzer click, wait one interval, then repeat;
each wait lasts `interval` milliseconds, performs no pin write, and each of
the two phases contains exactly one click (8 buzzer-HIGH writes). -/
theorem hazard_cycle_structure (env : Nat → Bool × Bool)
    (hall : ∀ u, env u = (true, true)) :
    (∀ f t, engageHazardLights env (f + 1) t =
        hazardCycle ++ engageHazardLights env f (t + traceTimeUs hazardCycle)) ∧
    hazardCycle =
      disableSignals ++ buzzerClick ++ fullWait blinkerstate.hazards interval ++
        hazardAllOn ++ buzzerClick ++ fullWait blinkerstate.hazards interval ∧
    writesOf (fullWait blinkerstate.hazards interval) = [] ∧
    traceTimeUs (fullWait blinkerstate.hazards interval) = 1000 * interval ∧
    ((disableSignals ++ buzzerClick ++ fullWait blinkerstate.hazards interval).filter
        (fun e => e = Event.write buzzerPin HIGH)).length = 8 ∧
    ((hazardAllOn ++ buzzerClick ++ fullWait blinkerstate.hazards interval).filter
        (fun e => e = Event.write buzzerPin HIGH)).length = 8 := by
  have hallS : ∀ u, (readButtonStates env u).1 = blinkerstate.hazards := by
    intro u
    simp [readButtonStates, digitalReadLine, hall u, HIGH, leftButtonPin, rightButtonPin]
  exact ⟨engageHazardLights_full env hallS, rfl, fullWait_noWrites blinkerstate.hazards interval,
    fullWait_timeUs blinkerstate.hazards interval, by decide, by decide⟩

set_option maxRecDepth 1000000 in
/-- Witness for C4 at the constant environment holding both buttons. -/
theorem hazard_cycle_structure_witness :
    (∀ f t, engageHazardLights (fun _ => (true, true)) (f + 1) t =
        hazardCycle ++
          engageHazardLights (fun _ => (true, true)) f (t + traceTimeUs hazardCycle)) ∧
    hazardCycle =
      disableSignals ++ buzzerClick ++ fullWait blinkerstate.hazards interval ++
        hazardAllOn ++ buzzerClick ++ fullWait blinkerstate.hazards interval ∧
    writesOf (fullWait blinkerstate.hazards interval) = [] ∧
    traceTimeUs (fullWait blinkerstate.hazards interval) = 1000 * interval ∧
    ((disableSignals ++ buzzerClick ++ fullWait blinkerstate.hazards interval).filter
        (fun e => e = Event.write buzzerPin HIGH)).length = 8 ∧
    ((hazardAllOn ++ buzzerClick ++ fullWait blinkerstate.hazards interval).filter
        (fun e => e = Event.write buzzerPin HIGH)).length = 8 :=
  hazard_cycle_structure (fun _ => (true, true)) (fun _ => rfl)

set_option maxRecDepth 1000000 in
/-- Counterexample to C3 as stated: `engageHazardLights` is not write-silent
after a cancellation during the off-phase wait.  With both buttons released,
the very first wait sample cancels (during the off phase), yet the suffix
of the trace after that cancelling sample still contains pin writes (the
unconditional all-on loop and one more buzzer click), and the function
returns with the lights ON (pin 9 HIGH), not off as the claim asserts. -/
theorem hazard_cancel_not_write_silent :
    afterCancel blinkerstate.hazards (engageHazardLights (fun _ => (false, false)) 1 0) =
      some (Event.delayMs 1 :: (hazardAllOn ++ buzzerClick)) ∧
    writesOf (Event.delayMs 1 :: (hazardAllOn ++ buzzerClick)) ≠ [] ∧
    applyTrace (fun _ => false) (engageHazardLights (fun _ => (false, false)) 1 0) 9 = true :=
  ⟨by decide, by decide, by decide⟩

/-- C3 (amended): once a sample during either cancellable wait of
`engageHazardLights` returns a mode other than hazards, no further sample is
taken — the whole remainder after the cancelling sample is either the lone
1 ms debounce delay of the cancelling call (cancellation during the
on-phase wait, hence no further pin write at all) or that delay followed by
exactly the unconditional all-on illumination of both banks and one buzzer
click (cancellation during the off-phase wait), and it contains no sample
event.  In either case the function returns with every signal output of
both banks HIGH (all lights on), never with the lights off. -/
theorem hazard_cancel_leaves_all_on (env : Nat → Bool × Bool) :
    ∀ f t r (p : Nat → Bool),
      afterCancel blinkerstate.hazards (engageHazardLights env f t) = some r →
      (r = [Event.delayMs 1] ∨ r = Event.delayMs 1 :: (hazardAllOn ++ buzzerClick)) ∧
      samplesOf r = [] ∧
      (writesOf r = [] ∨ writesOf r = hazardAllOn ++ writesOf buzzerClick) ∧
      (applyTrace p (engageHazardLights env f t) 9 = true ∧
        applyTrace p (engageHazardLights env f t) 10 = true ∧
        applyTrace p (engageHazardLights env f t) 11 = true ∧
        applyTrace p (engageHazardLights env f t) 12 = true ∧
        applyTrace p (engageHazardLights env f t) 3 = true ∧
        applyTrace p (engageHazardLights env f t) 4 = true ∧
        applyTrace p (engageHazardLights env f t) 5 = true ∧
        applyTrace p (engageHazardLights env f t) 6 = true) := by
  intro f
  induction f with
  | zero => intro t r p h; simp [engageHazardLights, afterCancel] at h
  | succ f ih =>
      intro t r p h
      simp only [engageHazardLights] at h ⊢
      by_cases hb1 : (waitLoop env blinkerstate.hazards interval
          (t + traceTimeUs (disableSignals ++ buzzerClick))).1 = true
      · by_cases hb2 : (waitLoop env blinkerstate.hazards interval
            (t + traceTimeUs (disableSignals ++ buzzerClick) +
              traceTimeUs (waitLoop env blinkerstate.hazards interval
                (t + traceTimeUs (disableSignals ++ buzzerClick))).2 +
              traceTimeUs (hazardAllOn ++ buzzerClick))).1 = true
        · -- both waits survived: the cancellation is inside the recursive call
          simp only [hb1, hb2, if_pos rfl, if_true] at h ⊢
          rw [afterCancel_append_ok] at h
          · refine ⟨(ih _ r p h).1, (ih _ r p h).2.1, (ih _ r p h).2.2.1, ?_⟩
            simp only [applyTrace_append]
            exact (ih _ r _ h).2.2.2
          · simp [allSamplesOk_append, allSamplesOk_disableSignals, allSamplesOk_buzzerClick,
              allSamplesOk_hazardAllOn,
              waitLoop_true env blinkerstate.hazards interval _ hb1,
              waitLoop_true env blinkerstate.hazards interval _ hb2]
        · -- cancellation during the on-phase wait: nothing follows it
          rw [Bool.not_eq_true] at hb2
          simp only [hb1, hb2, if_pos rfl, if_true, Bool.false_eq_true, if_false] at h ⊢
          rw [afterCancel_append_ok] at h
          · rw [waitLoop_false env blinkerstate.hazards interval _ hb2] at h
            injection h with hr
            refine ⟨Or.inl hr.symm, by rw [← hr]; rfl, Or.inl (by rw [← hr]; rfl), ?_⟩
            simp only [applyTrace_append, applyTrace_waitLoop]
            exact hazardMid_lit _
          · simp [allSamplesOk_append, allSamplesOk_disableSignals, allSamplesOk_buzzerClick,
              allSamplesOk_hazardAllOn,
              waitLoop_true env blinkerstate.hazards interval _ hb1]
      · -- cancellation during the off-phase wait: all-on and one click still follow
        rw [Bool.not_eq_true] at hb1
        simp only [hb1, Bool.false_eq_true, if_false, List.append_nil] at h ⊢
        have h1 : afterCancel blinkerstate.hazards
            ((disableSignals ++ buzzerClick) ++
              (waitLoop env blinkerstate.hazards interval
                (t + traceTimeUs (disableSignals ++ buzzerClick))).2) =
            some [Event.delayMs 1] := by
          rw [afterCancel_append_ok]
          · exact waitLoop_false env blinkerstate.hazards interval _ hb1
          · exact allSamplesOk_pre_hazard
        rw [afterCancel_append_some _ _ _ _ h1] at h
        injection h with hr
        refine ⟨Or.inr (by rw [← hr]; rfl), by rw [← hr]; rfl,
          Or.inr (by rw [← hr]; rfl), ?_⟩
        simp only [applyTrace_append]
        exact hazardMid_lit _

set_option maxRecDepth 1000000 in
/-- Witness for C3 (amended): both buttons released, cancellation during the
off-phase wait; the residue after the cancelling sample is exactly the
all-on writes plus one click, and the function returns all lights on. -/
theorem hazard_cancel_leaves_all_on_witness :
    (afterCancel blinkerstate.hazards (engageHazardLights (fun _ => (false, false)) 1 0) =
        some (Event.delayMs 1 :: (hazardAllOn ++ buzzerClick))) ∧
    ((Event.delayMs 1 :: (hazardAllOn ++ buzzerClick) = [Event.delayMs 1] ∨
        Event.delayMs 1 :: (hazardAllOn ++ buzzerClick) =
          Event.delayMs 1 :: (hazardAllOn ++ buzzerClick)) ∧
      samplesOf (Event.delayMs 1 :: (hazardAllOn ++ buzzerClick)) = [] ∧
      (writesOf (Event.delayMs 1 :: (hazardAllOn ++ buzzerClick)) = [] ∨
        writesOf (Event.delayMs 1 :: (hazardAllOn ++ buzzerClick)) =
          hazardAllOn ++ writesOf buzzerClick) ∧
      (applyTrace (fun _ => false) (engageHazardLights (fun _ => (false, false)) 1 0) 9 = true ∧
        applyTrace (fun _ => false) (engageHazardLights (fun _ => (false, false)) 1 0) 10 = true ∧
        applyTrace (fun _ => false) (engageHazardLights (fun _ => (false, false)) 1 0) 11 = true ∧
        applyTrace (fun _ => false) (engageHazardLights (fun _ => (false, false)) 1 0) 12 = true ∧
        applyTrace (fun _ => false) (engageHazardLights (fun _ => (false, false)) 1 0) 3 = true ∧
        applyTrace (fun _ => false) (engageHazardLights (fun _ => (false, false)) 1 0) 4 = true ∧
        applyTrace (fun _ => false) (engageHazardLights (fun _ => (false, false)) 1 0) 5 = true ∧
        applyTrace (fun _ => false) (engageHazardLights (fun _ => (false, false)) 1 0) 6 = true)) :=
  ⟨by decide,
    hazard_cancel_leaves_all_on (fun _ => (false, false)) 1 0
      (Event.delayMs 1 :: (hazardAllOn ++ buzzerClick)) (fun _ => false) (by decide)⟩
